import Mathlib

/-!
Verification development for the LOCI (Local Correlation Integral) outlier
detector in `pyod/models/loci.py`.

The source operates on an all-pairs Euclidean distance matrix.  We embed the
matrix as a list of rows of rationals (`numpy` float arithmetic is modelled by
exact rational / real arithmetic).  Every operation of the source file is
translated:

* `get_critical_values`   — `LOCI._get_critical_values` (lines 72–99);
* `get_sampling_N`        — `LOCI._get_sampling_N` (lines 101–124);
* `get_alpha_n_scalar` / `get_alpha_n_batch`
                          — the two `type(indices) is int` branches of
                            `LOCI._get_alpha_n` (lines 126–153);
* `radiusStat`            — the per-radius loop body of
                            `LOCI._calculate_decision_score` (lines 176–183):
                            `cur_alpha_n`, `n_hat`, `mdef`, and the square of
                            `np.std(n_values)` (kept as `var`, so that
                            `sigma_mdef = Real.sqrt var / n_hat`);
* `scanRadii`             — the per-point radius loop with the `n_hat >= 20`
                            guard and the `mdef > k * sigma_mdef` break
                            (lines 176–187); the running `outlier_scores[p_ix]`
                            cell is the `Option RadiusStat` accumulator
                            (`none` is the initial value `0`);
* `calculate_decision_score` — lines 168–188 (the distance-matrix part);
* `distMatrix1D`          — `squareform(pdist(X, "euclidean"))` for
                            one-dimensional datasets, where the Euclidean
                            distance is exactly `|x - y|`;
* `fit`                   — `LOCI.fit` (lines 190–214).

The float expression `mdef / sigma_mdef` involves `np.std`, a real square
root, so a point's final score is interpreted in `ℝ` by `realScoreVal`.
The two float comparisons of the loop are decided exactly: the guard
`n_hat >= 20` is rational, and the break test `mdef > k * sigma_mdef` is
decided by `exitB`, which lemma `exitB_iff` proves equivalent to the real
inequality `k * (Real.sqrt var / n_hat) < mdef`.
-/

/-- A distance matrix: list of rows of rationals. -/
abbrev DistMatrix := List (List ℚ)

/-- Row extraction `dist_matrix[i, :]`. -/
def row (D : DistMatrix) (i : ℕ) : List ℚ := D.getD i []

/-- The masked distances of `_get_critical_values`:
`distances[(r_min < distances) & (distances <= r_max)]` (line 96). -/
def maskedDistances (D : DistMatrix) (p_ix : ℕ) (r_max r_min : ℚ) : List ℚ :=
  (row D p_ix).filter (fun d => decide (r_min < d ∧ d ≤ r_max))

/-- `LOCI._get_critical_values` (lines 95–99):
`np.sort(np.concatenate((distances[mask], distances[mask] / alpha)))`.
`np.sort` is modelled by `List.insertionSort`, which produces the same
ascending list. -/
def get_critical_values (D : DistMatrix) (alpha : ℚ) (p_ix : ℕ)
    (r_max r_min : ℚ) : List ℚ :=
  List.insertionSort (· ≤ ·)
    (maskedDistances D p_ix r_max r_min ++
      (maskedDistances D p_ix r_max r_min).map (fun d => d / alpha))

/-- `LOCI._get_sampling_N` (lines 122–124):
`np.nonzero(p_distances <= r)[0]`, the ascending list of indices whose
distance entry is at most `r` (inclusive boundary). -/
def get_sampling_N (D : DistMatrix) (p_ix : ℕ) (r : ℚ) : List ℕ :=
  (List.range (row D p_ix).length).filter
    (fun j => decide ((row D p_ix).getD j 0 ≤ r))

/-- Scalar branch of `LOCI._get_alpha_n` (lines 146–149):
`np.count_nonzero(dist_matrix[indices, :] < (r * self._alpha))`
for an integer index (strict boundary). -/
def get_alpha_n_scalar (D : DistMatrix) (alpha : ℚ) (index : ℕ) (r : ℚ) : ℕ :=
  (row D index).countP (fun d => decide (d < r * alpha))

/-- Batch branch of `LOCI._get_alpha_n` (lines 150–153): one strict count per
index, computed independently along `axis=1`. -/
def get_alpha_n_batch (D : DistMatrix) (alpha : ℚ) (indices : List ℕ)
    (r : ℚ) : List ℕ :=
  indices.map (fun i => (row D i).countP (fun d => decide (d < r * alpha)))

/-- `np.mean` of a rational list (empty list: Lean's `0 / 0 = 0`). -/
def qmean (l : List ℚ) : ℚ := l.sum / (l.length : ℚ)

/-- The square of `np.std` (population standard deviation): the mean of the
squared deviations from the mean.  `np.std l = Real.sqrt (qvarOf l)`. -/
def qvarOf (l : List ℚ) : ℚ := qmean (l.map (fun x => (x - qmean l) ^ 2))

/-- The per-radius data computed by the loop body of
`_calculate_decision_score` (lines 176–183).  `var` is the square of
`np.std(n_values)`, so `sigma_mdef = Real.sqrt var / nHat`. -/
structure RadiusStat where
  cur : ℕ
  nHat : ℚ
  mdef : ℚ
  var : ℚ
deriving DecidableEq

/-- Loop body of `_calculate_decision_score` at one radius (lines 176–183). -/
def radiusStat (D : DistMatrix) (alpha : ℚ) (p_ix : ℕ) (r : ℚ) : RadiusStat :=
  let n_values := get_alpha_n_batch D alpha (get_sampling_N D p_ix r) r
  let cur_alpha_n := get_alpha_n_scalar D alpha p_ix r
  let vals : List ℚ := List.map (fun n : ℕ => (n : ℚ)) n_values
  ⟨cur_alpha_n, qmean vals, 1 - (cur_alpha_n : ℚ) / qmean vals, qvarOf vals⟩

/-- Exact decision of the break test `mdef > self.threshold_ * sigma_mdef`
(line 186), where `sigma_mdef = Real.sqrt var / nHat`.  Assuming
`0 < nHat` (guaranteed by the `n_hat >= 20` guard, line 184, under which the
test runs) and `0 ≤ var`, this Boolean equals the real comparison
`k * (Real.sqrt var / nHat) < mdef`; see `exitB_iff`. -/
def exitB (mdef k varq nHat : ℚ) : Bool :=
  if 0 ≤ k then
    decide (0 < mdef * nHat) && decide (k ^ 2 * varq < (mdef * nHat) ^ 2)
  else
    decide (0 < mdef * nHat) ||
      (decide (mdef * nHat = 0) && decide (0 < varq)) ||
      (decide (mdef * nHat < 0) &&
        decide ((mdef * nHat) ^ 2 < k ^ 2 * varq))

/-- The radius loop of `_calculate_decision_score` (lines 176–187) for one
point: walk the critical values in order; at each radius with
`n_hat >= 20` overwrite the accumulator with the radius data, and break when
additionally `mdef > k * sigma_mdef`. -/
def scanRadii (D : DistMatrix) (alpha k : ℚ) (p_ix : ℕ) :
    List ℚ → Option RadiusStat → Option RadiusStat
  | [], acc => acc
  | r :: rs, acc =>
    let s := radiusStat D alpha p_ix r
    if 20 ≤ s.nHat then
      if exitB s.mdef k s.var s.nHat then some s
      else scanRadii D alpha k p_ix rs (some s)
    else scanRadii D alpha k p_ix rs acc

/-- `dist_matrix.max()` (line 170) for a flattened matrix of non-negative
distance entries (`0` for the empty list). -/
def listMax (l : List ℚ) : ℚ := l.foldr max 0

/-- `LOCI._calculate_decision_score` (lines 168–188), from the distance
matrix on: per point the scan result descriptor (`none` is the untouched
initial score `0`).  `r_max = dist_matrix.max() / self._alpha` (line 171). -/
def calculate_decision_score (D : DistMatrix) (alpha k : ℚ) :
    List (Option RadiusStat) :=
  (List.range D.length).map
    (fun p =>
      scanRadii D alpha k p
        (get_critical_values D alpha p (listMax D.flatten / alpha) 0) none)

/-- `squareform(pdist(X, metric="euclidean"))` (line 169) for a
one-dimensional dataset: the Euclidean distance of two points of dimension
one is exactly `|x - y|`. -/
def distMatrix1D (xs : List ℚ) : DistMatrix :=
  xs.map (fun x => xs.map (fun y => |x - y|))

/-- The whole scoring procedure on a one-dimensional dataset. -/
def calculateDecisionScore1D (xs : List ℚ) (alpha k : ℚ) :
    List (Option RadiusStat) :=
  calculate_decision_score (distMatrix1D xs) alpha k

/-- The real value of one score cell: `0` if never written, else the float
`mdef / sigma_mdef` written at line 185, with
`sigma_mdef = np.std(n_values) / n_hat = Real.sqrt var / nHat`. -/
noncomputable def realScoreVal : Option RadiusStat → ℝ
  | none => 0
  | some s => (s.mdef : ℝ) / (Real.sqrt (s.var : ℝ) / (s.nHat : ℝ))

/-- The break condition of line 186 together with the guard of line 184:
`true` exactly on the radii at which the scan stops. -/
def stopsAt (D : DistMatrix) (alpha k : ℚ) (p_ix : ℕ) (r : ℚ) : Bool :=
  decide (20 ≤ (radiusStat D alpha p_ix r).nHat) &&
    exitB (radiusStat D alpha p_ix r).mdef k (radiusStat D alpha p_ix r).var
      (radiusStat D alpha p_ix r).nHat

/-- The radii a scan actually evaluates: the prefix of the critical values up
to and including the first radius whose guard and break test both hold. -/
def processedRadii (D : DistMatrix) (alpha k : ℚ) (p_ix : ℕ) :
    List ℚ → List ℚ
  | [] => []
  | r :: rs =>
    if stopsAt D alpha k p_ix r then [r]
    else r :: processedRadii D alpha k p_ix rs

/-- The per-radius data of the radii of a list that satisfy the
`n_hat >= 20` guard, in scan order. -/
def qualifyingStats (D : DistMatrix) (alpha : ℚ) (p_ix : ℕ)
    (rs : List ℚ) : List RadiusStat :=
  (rs.map (radiusStat D alpha p_ix)).filter (fun s => decide (20 ≤ s.nHat))

/-- Helper: the last element of a list as an option, with a fallback. -/
def lastOr (l : List RadiusStat) (acc : Option RadiusStat) :
    Option RadiusStat :=
  match l.getLast? with
  | none => acc
  | some s => some s

/-- Mean of a list of reals (`np.mean`). -/
noncomputable def rmean (l : List ℝ) : ℝ := l.sum / (l.length : ℝ)

/-- `np.std` of a list of reals (population standard deviation). -/
noncomputable def rstd (l : List ℝ) : ℝ :=
  Real.sqrt (rmean (l.map (fun x => (x - rmean l) ^ 2)))

open Classical in
/-- The label of one point (line 207):
`(decision_scores_ > self.threshold_).astype('int')`. -/
noncomputable def labelOf (s k : ℝ) : ℕ := if s > k then 1 else 0

/-- The configuration of `LOCI.__init__` (lines 67–70): `contamination` is
stored by the base class, `alpha` is `self._alpha`, `threshold` is
`self.threshold_ = k`. -/
structure LOCIModel where
  contamination : ℚ
  alpha : ℚ
  threshold : ℚ

/-- The state written by `LOCI.fit` (lines 203–214): `decision_scores_`,
`labels_`, `_mu`, `_sigma`. -/
structure FitState where
  decision_scores : List ℝ
  labels : List ℕ
  mu : ℝ
  sigma : ℝ

/-- `LOCI.fit` (lines 190–214) from the distance matrix on:
scores from `_calculate_decision_score`, labels by thresholding each score
against `self.threshold_`, then `_mu = np.mean` and `_sigma = np.std` of the
score array.  The `contamination` field of the configuration is never
read. -/
noncomputable def fit (m : LOCIModel) (D : DistMatrix) : FitState :=
  let scores :=
    (calculate_decision_score D m.alpha m.threshold).map realScoreVal
  ⟨scores, scores.map (fun s => labelOf s (m.threshold : ℝ)),
    rmean scores, rstd scores⟩

/-! ## Concrete datasets used by counterexamples and witnesses -/

/-- One-dimensional dataset: 3 points at 0, 24 points at 1, 3 points at 2. -/
def xs30 : List ℚ :=
  List.replicate 3 0 ++ List.replicate 24 1 ++ List.replicate 3 2

/-- One-dimensional dataset: two clusters of 20 identical points. -/
def xs40 : List ℚ := List.replicate 20 0 ++ List.replicate 20 1

/-- One-dimensional dataset: 22 points at 0 and 2 points at 1. -/
def xs24 : List ℚ := List.replicate 22 0 ++ List.replicate 2 1

/-- A small matrix (not square) exercising a fired scan cheaply. -/
def matD2 : DistMatrix := [[0, 1], List.replicate 40 0]

/-- The claim of C1 as stated, for a one-dimensional dataset: every point's
score equals the maximum observed `mdef / sigma_mdef` ratio over the tested
(processed) critical radii that satisfy the `n_hat >= 20` guard, and `0`
when no tested radius satisfies the guard. -/
def C1Statement (xs : List ℚ) (alpha k : ℚ) : Prop :=
  ∀ p_ix, p_ix < xs.length →
    (qualifyingStats (distMatrix1D xs) alpha p_ix
        (processedRadii (distMatrix1D xs) alpha k p_ix
          (get_critical_values (distMatrix1D xs) alpha p_ix
            (listMax (distMatrix1D xs).flatten / alpha) 0)) = [] →
      realScoreVal ((calculateDecisionScore1D xs alpha k).getD p_ix none) = 0) ∧
    (∀ s ∈ qualifyingStats (distMatrix1D xs) alpha p_ix
        (processedRadii (distMatrix1D xs) alpha k p_ix
          (get_critical_values (distMatrix1D xs) alpha p_ix
            (listMax (distMatrix1D xs).flatten / alpha) 0)),
      realScoreVal (some s) ≤
        realScoreVal ((calculateDecisionScore1D xs alpha k).getD p_ix none)) ∧
    (qualifyingStats (distMatrix1D xs) alpha p_ix
        (processedRadii (distMatrix1D xs) alpha k p_ix
          (get_critical_values (distMatrix1D xs) alpha p_ix
            (listMax (distMatrix1D xs).flatten / alpha) 0)) ≠ [] →
      ∃ s ∈ qualifyingStats (distMatrix1D xs) alpha p_ix
          (processedRadii (distMatrix1D xs) alpha k p_ix
            (get_critical_values (distMatrix1D xs) alpha p_ix
              (listMax (distMatrix1D xs).flatten / alpha) 0)),
        realScoreVal ((calculateDecisionScore1D xs alpha k).getD p_ix none) =
          realScoreVal (some s))

/-- The claim of C4 as stated: for every (one-dimensional) dataset of `N`
points, point index and radius `r > 0`, the scalar alpha count lies in
`[0, N - 1]` because a point supposedly never counts itself under the strict
inequality. -/
def C4Statement : Prop :=
  ∀ (xs : List ℚ) (alpha r : ℚ) (i : ℕ), 0 < alpha → 0 < r →
    get_alpha_n_scalar (distMatrix1D xs) alpha i r ≤ xs.length - 1

/-! ## Supporting lemmas -/

lemma row_length_of_square {D : DistMatrix} (hsq : ∀ l ∈ D, l.length = D.length)
    {i : ℕ} (hi : i < D.length) : (row D i).length = D.length := by
  have hmem : row D i ∈ D := by
    rw [row, List.getD_eq_getElem _ _ hi]
    exact List.getElem_mem hi
  exact hsq _ hmem

lemma qmean_nonneg {l : List ℚ} (h : ∀ x ∈ l, 0 ≤ x) : 0 ≤ qmean l := by
  unfold qmean
  exact div_nonneg (List.sum_nonneg h) (by positivity)

lemma qmean_le_of_le {l : List ℚ} {b : ℚ} (hb : 0 ≤ b)
    (h : ∀ x ∈ l, x ≤ b) : qmean l ≤ b := by
  unfold qmean
  rcases l with _ | ⟨a, t⟩
  · simpa using hb
  · have hlen : (0 : ℚ) < ((a :: t).length : ℚ) := by
      exact_mod_cast Nat.succ_pos t.length
    rw [div_le_iff hlen]
    calc (a :: t).sum ≤ (a :: t).length • b := List.sum_le_card_nsmul _ _ h
    _ = ((a :: t).length : ℚ) * b := by rw [nsmul_eq_mul]
    _ = b * ((a :: t).length : ℚ) := mul_comm _ _

lemma one_le_qmean {l : List ℚ} (hne : l ≠ []) (h : ∀ x ∈ l, 1 ≤ x) :
    1 ≤ qmean l := by
  unfold qmean
  have hlen : (0 : ℚ) < (l.length : ℚ) := by
    have := List.length_pos.2 hne
    exact_mod_cast this
  rw [le_div_iff hlen, one_mul]
  calc (l.length : ℚ) = ((l.length : ℕ) : ℚ) * 1 := by ring
  _ = l.length • (1 : ℚ) := by rw [nsmul_eq_mul]
  _ ≤ l.sum := List.card_nsmul_le_sum _ _ h

lemma qvarOf_nonneg (l : List ℚ) : 0 ≤ qvarOf l := by
  unfold qvarOf
  refine qmean_nonneg ?_
  intro x hx
  rcases List.mem_map.1 hx with ⟨y, _, rfl⟩
  positivity

lemma countP_eq_length_filter_range (l : List ℚ) (q : ℚ → Bool) :
    l.countP q =
      ((List.range l.length).filter (fun j => q (l.getD j 0))).length := by
  induction l with
  | nil => rfl
  | cons a t ih =>
    rw [List.countP_cons, List.length_cons, List.range_succ_eq_map,
      List.filter_cons]
    have hmap :
        (List.filter (fun j => q ((a :: t).getD j 0))
            (List.map Nat.succ (List.range t.length))) =
          List.map Nat.succ
            (List.filter (fun j => q (t.getD j 0)) (List.range t.length)) := by
      rw [List.filter_map]
      rfl
    rw [hmap, List.getD_cons_zero, ih]
    cases hq : q a with
    | true => simp [hq]
    | false => simp [hq]

lemma mem_get_critical_values {D : DistMatrix} {alpha : ℚ} {p_ix : ℕ}
    {r_max r_min r : ℚ} :
    r ∈ get_critical_values D alpha p_ix r_max r_min ↔
      r ∈ maskedDistances D p_ix r_max r_min ∨
        ∃ d ∈ maskedDistances D p_ix r_max r_min, r = d / alpha := by
  unfold get_critical_values
  rw [List.mem_insertionSort, List.mem_append, List.mem_map]
  constructor
  · rintro (h | ⟨d, hd, rfl⟩)
    · exact Or.inl h
    · exact Or.inr ⟨d, hd, rfl⟩
  · rintro (h | ⟨d, hd, rfl⟩)
    · exact Or.inl h
    · exact Or.inr ⟨d, hd, rfl⟩

lemma mem_maskedDistances {D : DistMatrix} {p_ix : ℕ} {r_max r_min d : ℚ} :
    d ∈ maskedDistances D p_ix r_max r_min ↔
      d ∈ row D p_ix ∧ r_min < d ∧ d ≤ r_max := by
  unfold maskedDistances
  rw [List.mem_filter]
  simp only [decide_eq_true_eq]

lemma mem_get_sampling_N {D : DistMatrix} {p_ix j : ℕ} {r : ℚ} :
    j ∈ get_sampling_N D p_ix r ↔
      j < (row D p_ix).length ∧ (row D p_ix).getD j 0 ≤ r := by
  unfold get_sampling_N
  rw [List.mem_filter, List.mem_range]
  simp only [decide_eq_true_eq]

lemma exitB_iff (mdef k varq nHat : ℚ) (hn : 0 < nHat) (hv : 0 ≤ varq) :
    exitB mdef k varq nHat = true ↔
      (k : ℝ) * (Real.sqrt (varq : ℝ) / (nHat : ℝ)) < (mdef : ℝ) := by
  have hnR : (0 : ℝ) < (nHat : ℝ) := by exact_mod_cast hn
  have hvR : (0 : ℝ) ≤ ((varq : ℚ) : ℝ) := by exact_mod_cast hv
  have hmain :
      ((k : ℝ) * (Real.sqrt (varq : ℝ) / (nHat : ℝ)) < (mdef : ℝ)) ↔
        (k : ℝ) * Real.sqrt (varq : ℝ) < ((mdef * nHat : ℚ) : ℝ) := by
    rw [← mul_div_assoc, div_lt_iff hnR]
    push_cast
    tauto
  rw [hmain]
  unfold exitB
  by_cases hk : 0 ≤ k
  · rw [if_pos hk]
    have hkR : (0 : ℝ) ≤ (k : ℝ) := by exact_mod_cast hk
    have hsq : (k : ℝ) * Real.sqrt (varq : ℝ) =
        Real.sqrt (((k : ℝ)) ^ 2 * (varq : ℝ)) := by
      rw [Real.sqrt_mul (by positivity) _, Real.sqrt_sq hkR]
    rw [Bool.and_eq_true, decide_eq_true_eq, decide_eq_true_eq]
    constructor
    · rintro ⟨hL, h2⟩
      have hLR : (0 : ℝ) < ((mdef * nHat : ℚ) : ℝ) := by exact_mod_cast hL
      have h2R : ((k : ℝ)) ^ 2 * (varq : ℝ) < ((mdef * nHat : ℚ) : ℝ) ^ 2 := by
        exact_mod_cast h2
      rw [hsq]
      exact (Real.sqrt_lt' hLR).2 h2R
    · intro hlt
      have hge : (0 : ℝ) ≤ (k : ℝ) * Real.sqrt (varq : ℝ) :=
        mul_nonneg hkR (Real.sqrt_nonneg _)
      have hLR : (0 : ℝ) < ((mdef * nHat : ℚ) : ℝ) := lt_of_le_of_lt hge hlt
      refine ⟨by exact_mod_cast hLR, ?_⟩
      rw [hsq] at hlt
      have h2R := (Real.sqrt_lt' hLR).1 hlt
      exact_mod_cast h2R
  · rw [if_neg hk]
    push_neg at hk
    have hkR : (k : ℝ) < 0 := by exact_mod_cast hk
    have hkne : (k : ℝ) ≠ 0 := ne_of_lt hkR
    have hsq : Real.sqrt (((k : ℝ)) ^ 2 * (varq : ℝ)) =
        (-(k : ℝ)) * Real.sqrt (varq : ℝ) := by
      rw [show ((k : ℝ)) ^ 2 = (-(k : ℝ)) ^ 2 by ring,
        Real.sqrt_mul (by positivity) _, Real.sqrt_sq (by linarith)]
    have hkey : ((k : ℝ) * Real.sqrt (varq : ℝ) < ((mdef * nHat : ℚ) : ℝ)) ↔
        (-((mdef * nHat : ℚ) : ℝ) < Real.sqrt (((k : ℝ)) ^ 2 * (varq : ℝ))) := by
      rw [hsq]
      constructor
      · intro h
        nlinarith [Real.sqrt_nonneg ((varq : ℚ) : ℝ)]
      · intro h
        nlinarith [Real.sqrt_nonneg ((varq : ℚ) : ℝ)]
    have hbool : (decide (0 < mdef * nHat) ||
        (decide (mdef * nHat = 0) && decide (0 < varq)) ||
        (decide (mdef * nHat < 0) &&
          decide ((mdef * nHat) ^ 2 < k ^ 2 * varq))) = true ↔
          (0 < mdef * nHat ∨ (mdef * nHat = 0 ∧ 0 < varq) ∨
            (mdef * nHat < 0 ∧ (mdef * nHat) ^ 2 < k ^ 2 * varq)) := by
      rw [Bool.or_eq_true, Bool.or_eq_true, Bool.and_eq_true, Bool.and_eq_true,
        decide_eq_true_eq, decide_eq_true_eq, decide_eq_true_eq,
        decide_eq_true_eq, decide_eq_true_eq]
      tauto
    rw [hkey, hbool]
    rcases lt_trichotomy (mdef * nHat) 0 with hL | hL | hL
    · have hLR : ((mdef * nHat : ℚ) : ℝ) < 0 := by exact_mod_cast hL
      have hiff : ((mdef * nHat) ^ 2 < k ^ 2 * varq) ↔
          (-((mdef * nHat : ℚ) : ℝ) < Real.sqrt (((k : ℝ)) ^ 2 * (varq : ℝ))) := by
        rw [Real.lt_sqrt (by linarith)]
        constructor
        · intro h
          have hR : ((mdef * nHat : ℚ) : ℝ) ^ 2 < ((k : ℝ)) ^ 2 * (varq : ℝ) := by
            exact_mod_cast h
          nlinarith
        · intro h
          have hR : ((mdef * nHat : ℚ) : ℝ) ^ 2 < ((k : ℝ)) ^ 2 * (varq : ℝ) := by
            nlinarith
          exact_mod_cast hR
      constructor
      · rintro (h | ⟨h, _⟩ | ⟨_, h⟩)
        · exact absurd h (by linarith)
        · exact absurd h (by linarith)
        · exact hiff.1 h
      · intro h
        exact Or.inr (Or.inr ⟨hL, hiff.2 h⟩)
    · have hLR : ((mdef * nHat : ℚ) : ℝ) = 0 := by exact_mod_cast hL
      have hk2 : (0 : ℝ) < ((k : ℝ)) ^ 2 := pow_two_pos_of_ne_zero hkne
      have hiff : (0 < varq) ↔
          (-((mdef * nHat : ℚ) : ℝ) < Real.sqrt (((k : ℝ)) ^ 2 * (varq : ℝ))) := by
        rw [hLR, neg_zero, Real.sqrt_pos]
        constructor
        · intro h
          have hvpos : (0 : ℝ) < (varq : ℝ) := by exact_mod_cast h
          nlinarith
        · intro h
          have hvpos : (0 : ℝ) < (varq : ℝ) := by
            by_contra hc
            push_neg at hc
            nlinarith
          exact_mod_cast hvpos
      constructor
      · rintro (h | ⟨_, h⟩ | ⟨h, _⟩)
        · exact absurd h (by linarith)
        · exact hiff.1 h
        · exact absurd h (by linarith)
      · intro h
        exact Or.inr (Or.inl ⟨hL, hiff.2 h⟩)
    · have hLR : (0 : ℝ) < ((mdef * nHat : ℚ) : ℝ) := by exact_mod_cast hL
      have hs : (0 : ℝ) ≤ Real.sqrt (((k : ℝ)) ^ 2 * (varq : ℝ)) :=
        Real.sqrt_nonneg _
      constructor
      · intro _
        linarith
      · intro _
        exact Or.inl hL

lemma scanRadii_nil (D : DistMatrix) (alpha k : ℚ) (p_ix : ℕ)
    (acc : Option RadiusStat) : scanRadii D alpha k p_ix [] acc = acc := rfl

lemma scanRadii_cons (D : DistMatrix) (alpha k : ℚ) (p_ix : ℕ) (r : ℚ)
    (rs : List ℚ) (acc : Option RadiusStat) :
    scanRadii D alpha k p_ix (r :: rs) acc =
      if 20 ≤ (radiusStat D alpha p_ix r).nHat then
        if exitB (radiusStat D alpha p_ix r).mdef k
            (radiusStat D alpha p_ix r).var (radiusStat D alpha p_ix r).nHat
          then some (radiusStat D alpha p_ix r)
          else scanRadii D alpha k p_ix rs (some (radiusStat D alpha p_ix r))
      else scanRadii D alpha k p_ix rs acc := rfl

lemma scanRadii_cons_skip {D : DistMatrix} {alpha k : ℚ} {p_ix : ℕ} {r : ℚ}
    (rs : List ℚ) (acc : Option RadiusStat)
    (h : ¬ 20 ≤ (radiusStat D alpha p_ix r).nHat) :
    scanRadii D alpha k p_ix (r :: rs) acc = scanRadii D alpha k p_ix rs acc := by
  rw [scanRadii_cons, if_neg h]

lemma scanRadii_cons_update {D : DistMatrix} {alpha k : ℚ} {p_ix : ℕ} {r : ℚ}
    (rs : List ℚ) (acc : Option RadiusStat)
    (h1 : 20 ≤ (radiusStat D alpha p_ix r).nHat)
    (h2 : exitB (radiusStat D alpha p_ix r).mdef k
      (radiusStat D alpha p_ix r).var (radiusStat D alpha p_ix r).nHat = false) :
    scanRadii D alpha k p_ix (r :: rs) acc =
      scanRadii D alpha k p_ix rs (some (radiusStat D alpha p_ix r)) := by
  rw [scanRadii_cons, if_pos h1, if_neg (by simp [h2])]

lemma scanRadii_cons_stop {D : DistMatrix} {alpha k : ℚ} {p_ix : ℕ} {r : ℚ}
    (rs : List ℚ) (acc : Option RadiusStat)
    (h1 : 20 ≤ (radiusStat D alpha p_ix r).nHat)
    (h2 : exitB (radiusStat D alpha p_ix r).mdef k
      (radiusStat D alpha p_ix r).var (radiusStat D alpha p_ix r).nHat = true) :
    scanRadii D alpha k p_ix (r :: rs) acc = some (radiusStat D alpha p_ix r) := by
  rw [scanRadii_cons, if_pos h1, if_pos h2]

lemma scanRadii_replicate_skip {D : DistMatrix} {alpha k : ℚ} {p_ix : ℕ}
    {r : ℚ} (h : ¬ 20 ≤ (radiusStat D alpha p_ix r).nHat) :
    ∀ (n : ℕ) (rest : List ℚ) (acc : Option RadiusStat),
      scanRadii D alpha k p_ix (List.replicate n r ++ rest) acc =
        scanRadii D alpha k p_ix rest acc := by
  intro n
  induction n with
  | zero => intro rest acc; rfl
  | succ m ih =>
    intro rest acc
    rw [List.replicate_succ, List.cons_append, scanRadii_cons_skip _ _ h, ih]

lemma scanRadii_replicate_update {D : DistMatrix} {alpha k : ℚ} {p_ix : ℕ}
    {r : ℚ} (h1 : 20 ≤ (radiusStat D alpha p_ix r).nHat)
    (h2 : exitB (radiusStat D alpha p_ix r).mdef k
      (radiusStat D alpha p_ix r).var (radiusStat D alpha p_ix r).nHat = false) :
    ∀ (n : ℕ) (rest : List ℚ) (acc : Option RadiusStat),
      scanRadii D alpha k p_ix (List.replicate (n + 1) r ++ rest) acc =
        scanRadii D alpha k p_ix rest (some (radiusStat D alpha p_ix r)) := by
  intro n
  induction n with
  | zero =>
    intro rest acc
    rw [List.replicate_succ, List.replicate_zero, List.cons_append,
      List.nil_append, scanRadii_cons_update _ _ h1 h2]
  | succ m ih =>
    intro rest acc
    rw [List.replicate_succ, List.cons_append, scanRadii_cons_update _ _ h1 h2,
      ih]

lemma processedRadii_nil (D : DistMatrix) (alpha k : ℚ) (p_ix : ℕ) :
    processedRadii D alpha k p_ix [] = [] := rfl

lemma processedRadii_cons (D : DistMatrix) (alpha k : ℚ) (p_ix : ℕ) (r : ℚ)
    (rs : List ℚ) :
    processedRadii D alpha k p_ix (r :: rs) =
      if stopsAt D alpha k p_ix r then [r]
      else r :: processedRadii D alpha k p_ix rs := rfl

lemma qualifyingStats_nil (D : DistMatrix) (alpha : ℚ) (p_ix : ℕ) :
    qualifyingStats D alpha p_ix [] = [] := rfl

lemma qualifyingStats_cons (D : DistMatrix) (alpha : ℚ) (p_ix : ℕ) (r : ℚ)
    (rs : List ℚ) :
    qualifyingStats D alpha p_ix (r :: rs) =
      if 20 ≤ (radiusStat D alpha p_ix r).nHat then
        radiusStat D alpha p_ix r :: qualifyingStats D alpha p_ix rs
      else qualifyingStats D alpha p_ix rs := by
  unfold qualifyingStats
  rw [List.map_cons, List.filter_cons]
  by_cases h : 20 ≤ (radiusStat D alpha p_ix r).nHat
  · rw [if_pos h, if_pos (by simpa using h)]
  · rw [if_neg h, if_neg (by simpa using h)]

lemma qualifyingStats_append (D : DistMatrix) (alpha : ℚ) (p_ix : ℕ)
    (l1 l2 : List ℚ) :
    qualifyingStats D alpha p_ix (l1 ++ l2) =
      qualifyingStats D alpha p_ix l1 ++ qualifyingStats D alpha p_ix l2 := by
  unfold qualifyingStats
  rw [List.map_append, List.filter_append]

lemma lastOr_nil (acc : Option RadiusStat) : lastOr [] acc = acc := rfl

lemma lastOr_cons (s : RadiusStat) (l : List RadiusStat)
    (acc : Option RadiusStat) : lastOr (s :: l) acc = lastOr l (some s) := by
  unfold lastOr
  cases l with
  | nil => rfl
  | cons b t =>
    rw [List.getLast?_cons_cons]
    cases h : (b :: t).getLast? with
    | none => exact absurd (List.getLast?_eq_none_iff.1 h) (List.cons_ne_nil b t)
    | some x => rfl

lemma lastOr_none_eq (l : List RadiusStat) : lastOr l none = l.getLast? := by
  unfold lastOr
  cases l.getLast? <;> rfl

lemma stopsAt_iff {D : DistMatrix} {alpha k : ℚ} {p_ix : ℕ} {r : ℚ} :
    stopsAt D alpha k p_ix r = true ↔
      20 ≤ (radiusStat D alpha p_ix r).nHat ∧
        exitB (radiusStat D alpha p_ix r).mdef k (radiusStat D alpha p_ix r).var
          (radiusStat D alpha p_ix r).nHat = true := by
  unfold stopsAt
  rw [Bool.and_eq_true, decide_eq_true_eq]

lemma scanRadii_eq_lastOr (D : DistMatrix) (alpha k : ℚ) (p_ix : ℕ) :
    ∀ (cv : List ℚ) (acc : Option RadiusStat),
      scanRadii D alpha k p_ix cv acc =
        lastOr (qualifyingStats D alpha p_ix (processedRadii D alpha k p_ix cv))
          acc := by
  intro cv
  induction cv with
  | nil => intro acc; rfl
  | cons r rs ih =>
    intro acc
    by_cases hg : 20 ≤ (radiusStat D alpha p_ix r).nHat
    · cases he : exitB (radiusStat D alpha p_ix r).mdef k
          (radiusStat D alpha p_ix r).var (radiusStat D alpha p_ix r).nHat with
      | true =>
        have hstop : stopsAt D alpha k p_ix r = true := stopsAt_iff.2 ⟨hg, he⟩
        rw [scanRadii_cons_stop _ _ hg he, processedRadii_cons, if_pos hstop,
          qualifyingStats_cons, if_pos hg, qualifyingStats_nil]
        rfl
      | false =>
        have hstop : stopsAt D alpha k p_ix r = false := by
          rw [← Bool.not_eq_true, stopsAt_iff]
          rintro ⟨-, habs⟩
          rw [he] at habs
          exact Bool.false_ne_true habs
        rw [scanRadii_cons_update _ _ hg he, processedRadii_cons,
          if_neg (by simp [hstop]), qualifyingStats_cons, if_pos hg,
          lastOr_cons, ih]
    · have hstop : stopsAt D alpha k p_ix r = false := by
        rw [← Bool.not_eq_true, stopsAt_iff]
        rintro ⟨habs, -⟩
        exact hg habs
      rw [scanRadii_cons_skip _ _ hg, processedRadii_cons,
        if_neg (by simp [hstop]), qualifyingStats_cons, if_neg hg, ih]

lemma scanRadii_stop_append {D : DistMatrix} {alpha k : ℚ} {p_ix : ℕ} {r : ℚ}
    (h : stopsAt D alpha k p_ix r = true) :
    ∀ (pre rest : List ℚ) (acc : Option RadiusStat),
      scanRadii D alpha k p_ix (pre ++ r :: rest) acc =
        scanRadii D alpha k p_ix (pre ++ [r]) acc := by
  obtain ⟨hg, he⟩ := stopsAt_iff.1 h
  intro pre
  induction pre with
  | nil =>
    intro rest acc
    rw [List.nil_append, List.nil_append, scanRadii_cons_stop _ _ hg he,
      scanRadii_cons_stop _ _ hg he]
  | cons q pr ih =>
    intro rest acc
    rw [List.cons_append, List.cons_append]
    by_cases hgq : 20 ≤ (radiusStat D alpha p_ix q).nHat
    · cases heq : exitB (radiusStat D alpha p_ix q).mdef k
          (radiusStat D alpha p_ix q).var (radiusStat D alpha p_ix q).nHat with
      | true => rw [scanRadii_cons_stop _ _ hgq heq,
          scanRadii_cons_stop _ _ hgq heq]
      | false => rw [scanRadii_cons_update _ _ hgq heq,
          scanRadii_cons_update _ _ hgq heq, ih]
    · rw [scanRadii_cons_skip _ _ hgq, scanRadii_cons_skip _ _ hgq, ih]

lemma scanRadii_fired {D : DistMatrix} {alpha k : ℚ} {p_ix : ℕ} :
    ∀ (cv : List ℚ) (acc : Option RadiusStat) (s : RadiusStat),
      scanRadii D alpha k p_ix cv acc = some s →
        acc = some s ∨
          (∃ r, s = radiusStat D alpha p_ix r ∧ 20 ≤ s.nHat) := by
  intro cv
  induction cv with
  | nil => intro acc s h; exact Or.inl h
  | cons r rs ih =>
    intro acc s h
    by_cases hg : 20 ≤ (radiusStat D alpha p_ix r).nHat
    · cases he : exitB (radiusStat D alpha p_ix r).mdef k
          (radiusStat D alpha p_ix r).var (radiusStat D alpha p_ix r).nHat with
      | true =>
        rw [scanRadii_cons_stop _ _ hg he] at h
        have heq : radiusStat D alpha p_ix r = s := Option.some_injective _ h
        refine Or.inr ⟨r, heq.symm, ?_⟩
        rw [← heq]
        exact hg
      | false =>
        rw [scanRadii_cons_update _ _ hg he] at h
        rcases ih _ _ h with hacc | hex
        · have heq : radiusStat D alpha p_ix r = s := Option.some_injective _ hacc
          refine Or.inr ⟨r, heq.symm, ?_⟩
          rw [← heq]
          exact hg
        · exact Or.inr hex
    · rw [scanRadii_cons_skip _ _ hg] at h
      exact ih _ _ h

lemma scanRadii_of_no_guard {D : DistMatrix} {alpha k : ℚ} {p_ix : ℕ}
    (h : ∀ r, (radiusStat D alpha p_ix r).nHat < 20) :
    ∀ (cv : List ℚ) (acc : Option RadiusStat),
      scanRadii D alpha k p_ix cv acc = acc := by
  intro cv
  induction cv with
  | nil => intro acc; rfl
  | cons r rs ih =>
    intro acc
    rw [scanRadii_cons_skip _ _ (not_le.2 (h r)), ih]

lemma calculate_decision_score_length (D : DistMatrix) (alpha k : ℚ) :
    (calculate_decision_score D alpha k).length = D.length := by
  unfold calculate_decision_score
  rw [List.length_map, List.length_range]

lemma calculate_decision_score_getD {D : DistMatrix} {alpha k : ℚ} {p : ℕ}
    (h : p < D.length) :
    (calculate_decision_score D alpha k).getD p none =
      scanRadii D alpha k p
        (get_critical_values D alpha p (listMax D.flatten / alpha) 0) none := by
  unfold calculate_decision_score
  rw [List.getD_eq_getElem?_getD, List.getElem?_map, List.getElem?_range h]
  rfl

lemma calculate_decision_score_getD_oor {D : DistMatrix} {alpha k : ℚ} {p : ℕ}
    (h : ¬ p < D.length) :
    (calculate_decision_score D alpha k).getD p none = none := by
  rw [List.getD_eq_default]
  rw [calculate_decision_score_length]
  omega

lemma le_listMax {l : List ℚ} : ∀ x ∈ l, x ≤ listMax l := by
  induction l with
  | nil => intro x hx; exact absurd hx (List.not_mem_nil x)
  | cons a t ih =>
    intro x hx
    rcases List.mem_cons.1 hx with rfl | hxt
    · exact le_max_left _ _
    · exact le_trans (ih x hxt) (le_max_right _ _)

lemma listMax_nonneg (l : List ℚ) : 0 ≤ listMax l := by
  induction l with
  | nil => exact le_refl 0
  | cons a t ih => exact le_trans ih (le_max_right _ _)

lemma listMax_le {l : List ℚ} {b : ℚ} (hb : 0 ≤ b) (h : ∀ x ∈ l, x ≤ b) :
    listMax l ≤ b := by
  induction l with
  | nil => exact hb
  | cons a t ih =>
    refine max_le (h a (List.mem_cons_self a t)) ?_
    exact ih (fun x hx => h x (List.mem_cons_of_mem a hx))

lemma listMax_eq {l : List ℚ} {b : ℚ} (hmem : b ∈ l) (hb : 0 ≤ b)
    (h : ∀ x ∈ l, x ≤ b) : listMax l = b :=
  le_antisymm (listMax_le hb h) (le_listMax b hmem)

lemma flatten_distMatrix1D_bound {xs : List ℚ} {b : ℚ}
    (h : ∀ x ∈ xs, 0 ≤ x ∧ x ≤ b) :
    ∀ z ∈ (distMatrix1D xs).flatten, z ≤ b := by
  intro z hz
  rw [List.mem_flatten] at hz
  obtain ⟨rw0, hrow, hzrow⟩ := hz
  unfold distMatrix1D at hrow
  rcases List.mem_map.1 hrow with ⟨x, hx, rfl⟩
  rcases List.mem_map.1 hzrow with ⟨y, hy, rfl⟩
  obtain ⟨hx0, hxb⟩ := h x hx
  obtain ⟨hy0, hyb⟩ := h y hy
  rw [abs_sub_le_iff]
  constructor
  · linarith
  · linarith

lemma getD_map_realScoreVal (l : List (Option RadiusStat)) (j : ℕ) :
    (l.map realScoreVal).getD j 0 = realScoreVal (l.getD j none) := by
  rw [List.getD_eq_getElem?_getD, List.getD_eq_getElem?_getD,
    List.getElem?_map]
  cases l[j]? with
  | none => rfl
  | some o => rfl

lemma processedRadii_replicate_no_stop {D : DistMatrix} {alpha k : ℚ}
    {p_ix : ℕ} {r : ℚ} (h : stopsAt D alpha k p_ix r = false) :
    ∀ (n : ℕ) (rest : List ℚ),
      processedRadii D alpha k p_ix (List.replicate n r ++ rest) =
        List.replicate n r ++ processedRadii D alpha k p_ix rest := by
  intro n
  induction n with
  | zero => intro rest; rfl
  | succ m ih =>
    intro rest
    rw [List.replicate_succ, List.cons_append, processedRadii_cons,
      if_neg (by simp [h]), ih, List.cons_append]

lemma count_le_of_small_rows {D : DistMatrix} (hsm : ∀ l ∈ D, l.length < 20)
    (j : ℕ) (q : ℚ → Bool) : ((row D j).countP q : ℚ) ≤ 19 := by
  have hlen : (row D j).length ≤ 19 := by
    by_cases hj : j < D.length
    · have : row D j ∈ D := by
        rw [row, List.getD_eq_getElem _ _ hj]
        exact List.getElem_mem hj
      have := hsm _ this
      omega
    · rw [row, List.getD_eq_default _ _ (Nat.le_of_not_lt hj)]
      simp
  have := List.countP_le_length q (l := row D j)
  have hc : (row D j).countP q ≤ 19 := le_trans this hlen
  exact_mod_cast hc

lemma radiusStat_nHat (D : DistMatrix) (alpha : ℚ) (p_ix : ℕ) (r : ℚ) :
    (radiusStat D alpha p_ix r).nHat =
      qmean (List.map (fun n : ℕ => (n : ℚ))
        (get_alpha_n_batch D alpha (get_sampling_N D p_ix r) r)) := rfl

lemma mem_get_alpha_n_batch {D : DistMatrix} {alpha r : ℚ} {idx : List ℕ}
    {c : ℕ} :
    c ∈ get_alpha_n_batch D alpha idx r ↔
      ∃ i ∈ idx, (row D i).countP (fun d => decide (d < r * alpha)) = c := by
  unfold get_alpha_n_batch
  exact List.mem_map

lemma nHat_lt_of_small_rows {D : DistMatrix} {alpha : ℚ}
    (hsm : ∀ l ∈ D, l.length < 20) (p_ix : ℕ) (r : ℚ) :
    (radiusStat D alpha p_ix r).nHat < 20 := by
  rw [radiusStat_nHat]
  have hle : qmean (List.map (fun n : ℕ => (n : ℚ))
      (get_alpha_n_batch D alpha (get_sampling_N D p_ix r) r)) ≤ 19 := by
    refine qmean_le_of_le (by norm_num) ?_
    intro x hx
    rcases List.mem_map.1 hx with ⟨c, hc, rfl⟩
    rcases mem_get_alpha_n_batch.1 hc with ⟨i, _, rfl⟩
    exact count_le_of_small_rows hsm i _
  linarith

lemma f30_max : listMax (distMatrix1D xs30).flatten = 2 :=
  listMax_eq (by with_unfolding_all decide) (by norm_num)
    (flatten_distMatrix1D_bound (by with_unfolding_all decide))

set_option maxRecDepth 8000 in
lemma f30_cv : get_critical_values (distMatrix1D xs30) (1/2) 0 4 0 =
    List.replicate 24 1 ++ (List.replicate 27 2 ++ List.replicate 3 4) := by
  with_unfolding_all decide

set_option maxRecDepth 8000 in
lemma s30_r1 : radiusStat (distMatrix1D xs30) (1/2) 0 1 =
    ⟨3, 65/3, 56/65, 392/9⟩ := by
  with_unfolding_all decide

set_option maxRecDepth 8000 in
lemma s30_r2_guard : ¬ 20 ≤ (radiusStat (distMatrix1D xs30) (1/2) 0 2).nHat := by
  with_unfolding_all decide

set_option maxRecDepth 8000 in
lemma s30_r4 : radiusStat (distMatrix1D xs30) (1/2) 0 4 =
    ⟨27, 147/5, 4/49, 36/25⟩ := by
  with_unfolding_all decide

set_option maxRecDepth 8000 in
lemma s30_r1_guard : 20 ≤ (radiusStat (distMatrix1D xs30) (1/2) 0 1).nHat := by
  rw [s30_r1]
  with_unfolding_all decide

set_option maxRecDepth 8000 in
lemma s30_r1_exit : exitB (radiusStat (distMatrix1D xs30) (1/2) 0 1).mdef 3
    (radiusStat (distMatrix1D xs30) (1/2) 0 1).var
    (radiusStat (distMatrix1D xs30) (1/2) 0 1).nHat = false := by
  rw [s30_r1]
  with_unfolding_all decide

set_option maxRecDepth 8000 in
lemma s30_r4_guard : 20 ≤ (radiusStat (distMatrix1D xs30) (1/2) 0 4).nHat := by
  rw [s30_r4]
  with_unfolding_all decide

set_option maxRecDepth 8000 in
lemma s30_r4_exit : exitB (radiusStat (distMatrix1D xs30) (1/2) 0 4).mdef 3
    (radiusStat (distMatrix1D xs30) (1/2) 0 4).var
    (radiusStat (distMatrix1D xs30) (1/2) 0 4).nHat = false := by
  rw [s30_r4]
  with_unfolding_all decide

lemma scan30 : scanRadii (distMatrix1D xs30) (1/2) 3 0
    (List.replicate 24 1 ++ (List.replicate 27 2 ++ List.replicate 3 4)) none =
    some ⟨27, 147/5, 4/49, 36/25⟩ := by
  rw [scanRadii_replicate_update s30_r1_guard s30_r1_exit 23,
    scanRadii_replicate_skip s30_r2_guard,
    show List.replicate 3 (4 : ℚ) = List.replicate 3 4 ++ [] from
      (List.append_nil _).symm,
    scanRadii_replicate_update s30_r4_guard s30_r4_exit 2,
    scanRadii_nil, s30_r4]

set_option maxRecDepth 8000 in
lemma score30 : (calculateDecisionScore1D xs30 (1/2) 3).getD 0 none =
    some ⟨27, 147/5, 4/49, 36/25⟩ := by
  unfold calculateDecisionScore1D
  rw [calculate_decision_score_getD (by with_unfolding_all decide),
    show listMax (distMatrix1D xs30).flatten / (1/2 : ℚ) = 4 by
      rw [f30_max]; norm_num,
    f30_cv, scan30]

set_option maxRecDepth 8000 in
lemma stops30_r1 : stopsAt (distMatrix1D xs30) (1/2) 3 0 1 = false := by
  unfold stopsAt
  rw [s30_r1]
  with_unfolding_all decide

set_option maxRecDepth 8000 in
lemma stops30_r2 : stopsAt (distMatrix1D xs30) (1/2) 3 0 2 = false := by
  unfold stopsAt
  rw [Bool.and_eq_false_iff]
  left
  rw [decide_eq_false_iff_not]
  exact s30_r2_guard

set_option maxRecDepth 8000 in
lemma stops30_r4 : stopsAt (distMatrix1D xs30) (1/2) 3 0 4 = false := by
  unfold stopsAt
  rw [s30_r4]
  with_unfolding_all decide

lemma processed30 : processedRadii (distMatrix1D xs30) (1/2) 3 0
    (List.replicate 24 1 ++ (List.replicate 27 2 ++ List.replicate 3 4)) =
    List.replicate 24 1 ++ (List.replicate 27 2 ++ List.replicate 3 4) := by
  rw [processedRadii_replicate_no_stop stops30_r1,
    processedRadii_replicate_no_stop stops30_r2,
    show List.replicate 3 (4 : ℚ) = List.replicate 3 4 ++ [] from
      (List.append_nil _).symm,
    processedRadii_replicate_no_stop stops30_r4,
    processedRadii_nil]

lemma f40_max : listMax (distMatrix1D xs40).flatten = 1 :=
  listMax_eq (by with_unfolding_all decide) (by norm_num)
    (flatten_distMatrix1D_bound (by with_unfolding_all decide))

set_option maxRecDepth 8000 in
lemma f40_cv : get_critical_values (distMatrix1D xs40) (1/2) 0 2 0 =
    List.replicate 20 1 ++ List.replicate 20 2 := by
  with_unfolding_all decide

set_option maxRecDepth 8000 in
lemma s40_r1 : radiusStat (distMatrix1D xs40) (1/2) 0 1 = ⟨20, 20, 0, 0⟩ := by
  with_unfolding_all decide

set_option maxRecDepth 8000 in
lemma s40_r2 : radiusStat (distMatrix1D xs40) (1/2) 0 2 = ⟨20, 20, 0, 0⟩ := by
  with_unfolding_all decide

set_option maxRecDepth 8000 in
lemma score40 : (calculateDecisionScore1D xs40 (1/2) 3).getD 0 none =
    some ⟨20, 20, 0, 0⟩ := by
  unfold calculateDecisionScore1D
  rw [calculate_decision_score_getD (by with_unfolding_all decide),
    show listMax (distMatrix1D xs40).flatten / (1/2 : ℚ) = 2 by
      rw [f40_max]; norm_num,
    f40_cv,
    scanRadii_replicate_update
      (by rw [s40_r1] <;> with_unfolding_all decide)
      (by rw [s40_r1] <;> with_unfolding_all decide) 19,
    show List.replicate 20 (2 : ℚ) = List.replicate 20 2 ++ [] from
      (List.append_nil _).symm,
    scanRadii_replicate_update
      (by rw [s40_r2] <;> with_unfolding_all decide)
      (by rw [s40_r2] <;> with_unfolding_all decide) 19,
    scanRadii_nil, s40_r2]

lemma f24_max : listMax (distMatrix1D xs24).flatten = 1 :=
  listMax_eq (by with_unfolding_all decide) (by norm_num)
    (flatten_distMatrix1D_bound (by with_unfolding_all decide))

set_option maxRecDepth 8000 in
lemma f24_cv : get_critical_values (distMatrix1D xs24) (1/2) 0 2 0 =
    List.replicate 2 1 ++ List.replicate 2 2 := by
  with_unfolding_all decide

set_option maxRecDepth 8000 in
lemma s24_r1 : radiusStat (distMatrix1D xs24) (1/2) 0 1 =
    ⟨22, 61/3, -5/61, 275/9⟩ := by
  with_unfolding_all decide

set_option maxRecDepth 8000 in
lemma s24_r2 : radiusStat (distMatrix1D xs24) (1/2) 0 2 =
    ⟨22, 61/3, -5/61, 275/9⟩ := by
  with_unfolding_all decide

set_option maxRecDepth 8000 in
lemma score24 : (calculateDecisionScore1D xs24 (1/2) 3).getD 0 none =
    some ⟨22, 61/3, -5/61, 275/9⟩ := by
  unfold calculateDecisionScore1D
  rw [calculate_decision_score_getD (by with_unfolding_all decide),
    show listMax (distMatrix1D xs24).flatten / (1/2 : ℚ) = 2 by
      rw [f24_max]; norm_num,
    f24_cv,
    scanRadii_replicate_update
      (by rw [s24_r1] <;> with_unfolding_all decide)
      (by rw [s24_r1] <;> with_unfolding_all decide) 1,
    show List.replicate 2 (2 : ℚ) = List.replicate 2 2 ++ [] from
      (List.append_nil _).symm,
    scanRadii_replicate_update
      (by rw [s24_r2] <;> with_unfolding_all decide)
      (by rw [s24_r2] <;> with_unfolding_all decide) 1,
    scanRadii_nil, s24_r2]

set_option maxRecDepth 8000 in
lemma scanD2 : scanRadii matD2 (1/2) 3 0 [1, 2] none =
    some ⟨1, 41/2, 39/41, 1521/4⟩ := by
  with_unfolding_all decide

set_option maxRecDepth 8000 in
lemma stopsD2 : stopsAt matD2 (1/2) (1/2) 0 1 = true := by
  with_unfolding_all decide

/-! ## Claim theorems -/

/-- C7: for every distance matrix, index `i` and radius `r`, the scalar-mode
alpha count equals the single entry of the batch-mode alpha count on the
singleton index set `[i]`: the two branches of `_get_alpha_n` agree on
degenerate batches. -/
theorem C7_scalar_batch_agree (D : DistMatrix) (alpha r : ℚ) (i : ℕ) :
    get_alpha_n_batch D alpha [i] r = [get_alpha_n_scalar D alpha i r] := rfl

/-- C5: the sampling query returns exactly the indices `j` with
`D[p][j] <= r` (inclusive boundary), and the alpha count counts exactly the
indices `j` with `D[i][j] < alpha * r` (strict boundary). -/
theorem C5_boundary_semantics (D : DistMatrix) (alpha r : ℚ) (p_ix i j : ℕ) :
    (j ∈ get_sampling_N D p_ix r ↔
      j < (row D p_ix).length ∧ (row D p_ix).getD j 0 ≤ r) ∧
    get_alpha_n_scalar D alpha i r =
      ((List.range (row D i).length).filter
        (fun j2 => decide ((row D i).getD j2 0 < alpha * r))).length := by
  constructor
  · exact mem_get_sampling_N
  · unfold get_alpha_n_scalar
    rw [countP_eq_length_filter_range]
    have hcomm : ∀ d : ℚ, decide (d < r * alpha) = decide (d < alpha * r) := by
      intro d
      rw [mul_comm]
    simp only [hcomm]

/-- C6: the critical-value sequence is the ascending sort of the
concatenation (no deduplication) of the masked distances with the same
distances divided by alpha: it is sorted, it is a permutation of that
concatenation, and its length is exactly twice the masked-list length
(duplicates kept).  Moreover the scoring procedure uses the fixed bound
`r_max = max(D) / alpha` (with `max(D)` an upper bound of every entry of the
flattened matrix) and `r_min = 0` for every point. -/
theorem C6_critical_values_spec (D : DistMatrix) (alpha k : ℚ) (p_ix : ℕ)
    (r_max r_min : ℚ) :
    List.Sorted (· ≤ ·) (get_critical_values D alpha p_ix r_max r_min) ∧
    (get_critical_values D alpha p_ix r_max r_min).Perm
      (maskedDistances D p_ix r_max r_min ++
        (maskedDistances D p_ix r_max r_min).map (fun d => d / alpha)) ∧
    (get_critical_values D alpha p_ix r_max r_min).length =
      2 * (maskedDistances D p_ix r_max r_min).length ∧
    (∀ x ∈ D.flatten, x ≤ listMax D.flatten) ∧
    (calculate_decision_score D alpha k).getD p_ix none =
      (if p_ix < D.length then
        scanRadii D alpha k p_ix
          (get_critical_values D alpha p_ix (listMax D.flatten / alpha) 0) none
      else none) := by
  refine ⟨?_, ?_, ?_, ?_, ?_⟩
  · exact List.sorted_insertionSort _ _
  · exact List.perm_insertionSort _ _
  · rw [get_critical_values, (List.perm_insertionSort _ _).length_eq,
      List.length_append, List.length_map]
    omega
  · exact le_listMax
  · by_cases h : p_ix < D.length
    · rw [if_pos h, calculate_decision_score_getD h]
    · rw [if_neg h, calculate_decision_score_getD_oor h]

/-- C3: for a square distance matrix of a dataset with fewer than 20 points,
no radius of any point ever satisfies the `n_hat >= 20` guard, so the scoring
procedure returns the untouched default (`none`, real value `0`) for every
point. -/
theorem C3_small_dataset_scores_zero (D : DistMatrix) (alpha k : ℚ)
    (hn : D.length < 20) (hsq : ∀ l ∈ D, l.length = D.length) :
    (∀ (p_ix : ℕ) (r : ℚ), (radiusStat D alpha p_ix r).nHat < 20) ∧
    calculate_decision_score D alpha k = List.replicate D.length none ∧
    (∀ p_ix : ℕ,
      realScoreVal ((calculate_decision_score D alpha k).getD p_ix none) = 0) := by
  have hsm : ∀ l ∈ D, l.length < 20 := by
    intro l hl
    rw [hsq l hl]
    exact hn
  have h1 : ∀ (p_ix : ℕ) (r : ℚ), (radiusStat D alpha p_ix r).nHat < 20 :=
    fun p_ix r => nHat_lt_of_small_rows hsm p_ix r
  have h2 : calculate_decision_score D alpha k = List.replicate D.length none := by
    unfold calculate_decision_score
    rw [List.map_congr_left (g := fun _ => (none : Option RadiusStat))
      (fun p _ => scanRadii_of_no_guard (h1 p) _ _),
      List.map_const', List.length_range]
  refine ⟨h1, h2, ?_⟩
  intro p_ix
  rw [h2]
  have hget : (List.replicate D.length (none : Option RadiusStat)).getD p_ix
      none = none := by
    rw [List.getD_eq_getElem?_getD, List.getElem?_replicate]
    by_cases h : p_ix < D.length
    · rw [if_pos h]
      rfl
    · rw [if_neg h]
      rfl
  rw [hget]
  rfl

/-- Witness for C3: the three-point dataset `[0, 1, 5]` gets all scores at
the default. -/
theorem C3_witness :
    calculate_decision_score (distMatrix1D [0, 1, 5]) (1/2) 3 =
      List.replicate (distMatrix1D [0, 1, 5]).length none :=
  (C3_small_dataset_scores_zero (distMatrix1D [0, 1, 5]) (1/2) 3
    (by with_unfolding_all decide) (by with_unfolding_all decide)).2.1

/-- C10: for a square distance matrix with zero diagonal and `alpha > 0`,
every critical radius `r` produced with `r_min = 0` (as the scoring
procedure does) is strictly positive, the sampling neighborhood of `p`
contains `p` itself, every batch alpha count is at least `1` (each sampled
point counts itself, its self-distance `0` being strictly below
`alpha * r`), and hence `n_hat >= 1` and in particular the divisions by
`n_hat` in `mdef` and `sigma_mdef` never divide by zero. -/
theorem C10_no_division_by_zero (D : DistMatrix) (alpha : ℚ) (p_ix : ℕ)
    (r_max r : ℚ) (halpha : 0 < alpha)
    (hsq : ∀ l ∈ D, l.length = D.length)
    (hdiag : ∀ i, i < D.length → (row D i).getD i 0 = 0)
    (hp : p_ix < D.length)
    (hr : r ∈ get_critical_values D alpha p_ix r_max 0) :
    0 < r ∧ p_ix ∈ get_sampling_N D p_ix r ∧
      (∀ c ∈ get_alpha_n_batch D alpha (get_sampling_N D p_ix r) r, 1 ≤ c) ∧
      1 ≤ (radiusStat D alpha p_ix r).nHat ∧
      (radiusStat D alpha p_ix r).nHat ≠ 0 := by
  have hr0 : 0 < r := by
    rcases mem_get_critical_values.1 hr with hm | ⟨d, hd, rfl⟩
    · exact (mem_maskedDistances.1 hm).2.1
    · exact div_pos (mem_maskedDistances.1 hd).2.1 halpha
  have hrowp : (row D p_ix).length = D.length := row_length_of_square hsq hp
  have hself : p_ix ∈ get_sampling_N D p_ix r := by
    rw [mem_get_sampling_N]
    refine ⟨by rw [hrowp]; exact hp, ?_⟩
    rw [hdiag p_ix hp]
    exact le_of_lt hr0
  have hcount : ∀ c ∈ get_alpha_n_batch D alpha (get_sampling_N D p_ix r) r,
      1 ≤ c := by
    intro c hc
    rcases mem_get_alpha_n_batch.1 hc with ⟨i, hi, rfl⟩
    have hiD : i < D.length := by
      have := (mem_get_sampling_N.1 hi).1
      rw [hrowp] at this
      exact this
    have hrowi : (row D i).length = D.length := row_length_of_square hsq hiD
    have hmem : (row D i).getD i 0 ∈ row D i := by
      rw [List.getD_eq_getElem _ _ (by rw [hrowi]; exact hiD)]
      exact List.getElem_mem _
    rw [hdiag i hiD] at hmem
    exact List.countP_pos_iff.2
      ⟨0, hmem, decide_eq_true (mul_pos hr0 halpha)⟩
  have hbatch_ne : get_alpha_n_batch D alpha (get_sampling_N D p_ix r) r ≠ [] := by
    intro habs
    unfold get_alpha_n_batch at habs
    rw [List.map_eq_nil] at habs
    exact List.ne_nil_of_mem hself habs
  have hnhat : 1 ≤ (radiusStat D alpha p_ix r).nHat := by
    rw [radiusStat_nHat]
    refine one_le_qmean ?_ ?_
    · intro habs
      rw [List.map_eq_nil] at habs
      exact hbatch_ne habs
    · intro x hx
      rcases List.mem_map.1 hx with ⟨c, hc, rfl⟩
      exact_mod_cast hcount c hc
  refine ⟨hr0, hself, hcount, hnhat, ?_⟩
  intro habs
  rw [habs] at hnhat
  norm_num at hnhat

/-- Witness for C10 at the two-point dataset `[0, 1]`, radius `1`. -/
theorem C10_witness :
    0 < (1 : ℚ) ∧ 0 ∈ get_sampling_N (distMatrix1D [0, 1]) 0 1 ∧
      (∀ c ∈ get_alpha_n_batch (distMatrix1D [0, 1]) (1/2)
        (get_sampling_N (distMatrix1D [0, 1]) 0 1) 1, 1 ≤ c) ∧
      1 ≤ (radiusStat (distMatrix1D [0, 1]) (1/2) 0 1).nHat ∧
      (radiusStat (distMatrix1D [0, 1]) (1/2) 0 1).nHat ≠ 0 :=
  C10_no_division_by_zero (distMatrix1D [0, 1]) (1/2) 0 4 1 (by norm_num)
    (by with_unfolding_all decide) (by with_unfolding_all decide)
    (by with_unfolding_all decide) (by with_unfolding_all decide)

lemma getD_map_lt {α β : Type} (f : α → β) (l : List α) (j : ℕ) (d : β)
    (d2 : α) (h : j < l.length) : (l.map f).getD j d = f (l.getD j d2) := by
  rw [List.getD_eq_getElem _ _ (by rw [List.length_map]; exact h),
    List.getD_eq_getElem _ _ h, List.getElem_map]

/-- C9: after fit, the label array is the element-wise indicator
`score > threshold_k`, the stored mean and standard deviation are exactly the
mean and the standard deviation of the full score array, and the
`contamination` configuration plays no role in any of it. -/
theorem C9_fit_surface (c1 c2 alpha k : ℚ) (D : DistMatrix) (j : ℕ)
    (hj : j < D.length) :
    fit ⟨c1, alpha, k⟩ D = fit ⟨c2, alpha, k⟩ D ∧
    (fit ⟨c1, alpha, k⟩ D).labels.getD j 0 =
      labelOf (realScoreVal ((calculate_decision_score D alpha k).getD j none))
        (k : ℝ) ∧
    (fit ⟨c1, alpha, k⟩ D).mu =
      rmean ((calculate_decision_score D alpha k).map realScoreVal) ∧
    (fit ⟨c1, alpha, k⟩ D).sigma =
      rstd ((calculate_decision_score D alpha k).map realScoreVal) := by
  refine ⟨rfl, ?_, rfl, rfl⟩
  have hj2 : j < ((calculate_decision_score D alpha k).map realScoreVal).length := by
    rw [List.length_map, calculate_decision_score_length]
    exact hj
  show (((calculate_decision_score D alpha k).map realScoreVal).map
      (fun s => labelOf s (k : ℝ))).getD j 0 = _
  rw [getD_map_lt _ _ _ _ 0 hj2, getD_map_realScoreVal]

/-- Witness for C9 at the two-point dataset `[0, 1]` and two different
contamination values. -/
theorem C9_witness :
    fit ⟨1, 1/2, 3⟩ (distMatrix1D [0, 1]) =
      fit ⟨2, 1/2, 3⟩ (distMatrix1D [0, 1]) ∧
    (fit ⟨1, 1/2, 3⟩ (distMatrix1D [0, 1])).labels.getD 0 0 =
      labelOf (realScoreVal
        ((calculate_decision_score (distMatrix1D [0, 1]) (1/2) 3).getD 0 none))
        ((3 : ℚ) : ℝ) ∧
    (fit ⟨1, 1/2, 3⟩ (distMatrix1D [0, 1])).mu =
      rmean ((calculate_decision_score (distMatrix1D [0, 1]) (1/2) 3).map
        realScoreVal) ∧
    (fit ⟨1, 1/2, 3⟩ (distMatrix1D [0, 1])).sigma =
      rstd ((calculate_decision_score (distMatrix1D [0, 1]) (1/2) 3).map
        realScoreVal) :=
  C9_fit_surface 1 2 (1/2) 3 (distMatrix1D [0, 1]) 0
    (by with_unfolding_all decide)

/-- C2: the per-point scan overwrites the running score at each
guard-satisfying radius (so the LAST qualifying processed radius wins: the
scan result is exactly the last element of the qualifying stats of the
processed prefix), and as soon as a radius satisfies both the guard and the
break test, the scan stops: all radii after it are never evaluated and do
not affect the result. -/
theorem C2_scan_semantics (D : DistMatrix) (alpha k : ℚ) (p_ix : ℕ) :
    (∀ cv : List ℚ,
      scanRadii D alpha k p_ix cv none =
        (qualifyingStats D alpha p_ix (processedRadii D alpha k p_ix cv)).getLast?) ∧
    (∀ (pre rest : List ℚ) (r : ℚ), stopsAt D alpha k p_ix r = true →
      scanRadii D alpha k p_ix (pre ++ r :: rest) none =
        scanRadii D alpha k p_ix (pre ++ [r]) none) := by
  constructor
  · intro cv
    rw [scanRadii_eq_lastOr, lastOr_none_eq]
  · intro pre rest r h
    exact scanRadii_stop_append h pre rest none

/-- Witness for C2: on `matD2` with `threshold = 1/2` the radius `1` stops the
scan, so the tail `[2]` is irrelevant. -/
theorem C2_witness :
    scanRadii matD2 (1/2) (1/2) 0 ([] ++ 1 :: [2]) none =
      scanRadii matD2 (1/2) (1/2) 0 ([] ++ [1]) none :=
  (C2_scan_semantics matD2 (1/2) (1/2) 0).2 [] [2] 1
    (by with_unfolding_all decide)

/-- C1 is false on the code: in the 30-point dataset `xs30` (3 points at 0,
24 at 1, 3 at 2, with the default `alpha = 1/2`, `k = 3`), point 0 has a
qualifying tested radius `1` with ratio `2 * sqrt 2 > 2`, but the returned
score is the ratio `2` of the last qualifying radius `4`: the score is not
the maximum over qualifying tested radii. -/
theorem C1_counterexample : ¬ C1Statement xs30 (1/2) 3 := by
  intro h
  obtain ⟨-, hub, -⟩ := h 0 (by with_unfolding_all decide)
  have hmem : (⟨3, 65/3, 56/65, 392/9⟩ : RadiusStat) ∈
      qualifyingStats (distMatrix1D xs30) (1/2) 0
        (processedRadii (distMatrix1D xs30) (1/2) 3 0
          (get_critical_values (distMatrix1D xs30) (1/2) 0
            (listMax (distMatrix1D xs30).flatten / (1/2)) 0)) := by
    rw [show listMax (distMatrix1D xs30).flatten / (1/2 : ℚ) = 4 by
        rw [f30_max]; norm_num,
      f30_cv, processed30]
    unfold qualifyingStats
    rw [← s30_r1]
    refine List.mem_filter.2 ⟨List.mem_map_of_mem _ ?_, ?_⟩
    · with_unfolding_all decide
    · exact decide_eq_true s30_r1_guard
  have hle := hub _ hmem
  rw [show (calculateDecisionScore1D xs30 (1/2) 3).getD 0 none =
      some ⟨27, 147/5, 4/49, 36/25⟩ from score30] at hle
  have h4 : realScoreVal (some (⟨27, 147/5, 4/49, 36/25⟩ : RadiusStat)) = 2 := by
    show ((4/49 : ℚ) : ℝ) / (Real.sqrt ((36/25 : ℚ) : ℝ) / ((147/5 : ℚ) : ℝ)) = 2
    rw [show ((36/25 : ℚ) : ℝ) = ((6 : ℝ)/5) ^ 2 by push_cast; norm_num,
      Real.sqrt_sq (by norm_num)]
    push_cast
    norm_num
  have h1gt : 2 < realScoreVal (some (⟨3, 65/3, 56/65, 392/9⟩ : RadiusStat)) := by
    show 2 < ((56/65 : ℚ) : ℝ) / (Real.sqrt ((392/9 : ℚ) : ℝ) / ((65/3 : ℚ) : ℝ))
    have hc1 : ((56/65 : ℚ) : ℝ) = 56/65 := by push_cast; norm_num
    have hc2 : ((392/9 : ℚ) : ℝ) = 392/9 := by push_cast; norm_num
    have hc3 : ((65/3 : ℚ) : ℝ) = 65/3 := by push_cast; norm_num
    rw [hc1, hc2, hc3]
    have hsqlt : Real.sqrt (392/9 : ℝ) < 28/3 := by
      rw [Real.sqrt_lt' (by norm_num)]
      norm_num
    have hsqpos : (0 : ℝ) < Real.sqrt (392/9 : ℝ) :=
      Real.sqrt_pos.2 (by norm_num)
    have hden : Real.sqrt (392/9 : ℝ) / (65/3 : ℝ) < (28/65 : ℝ) := by
      rw [div_lt_iff (by norm_num : (0:ℝ) < 65/3)]
      calc Real.sqrt (392/9 : ℝ) < 28/3 := hsqlt
      _ = 28/65 * (65/3) := by norm_num
    have hdpos : (0 : ℝ) < Real.sqrt (392/9 : ℝ) / (65/3 : ℝ) :=
      div_pos hsqpos (by norm_num)
    calc (2 : ℝ) = (56/65) / (28/65 : ℝ) := by norm_num
    _ < (56/65) / (Real.sqrt (392/9 : ℝ) / (65/3 : ℝ)) :=
      div_lt_div_of_pos_left (by norm_num) hdpos hden
  rw [h4] at hle
  linarith

/-- C1 amended: the score returned for a point is not the maximum over
qualifying tested radii; it is the `mdef / sigma_mdef` value of the LAST
guard-satisfying radius among the processed (tested) critical radii, and `0`
when no processed radius satisfies the guard. -/
theorem C1_last_qualifying_wins (D : DistMatrix) (alpha k : ℚ) (p_ix : ℕ)
    (hp : p_ix < D.length) :
    realScoreVal ((calculate_decision_score D alpha k).getD p_ix none) =
      realScoreVal ((qualifyingStats D alpha p_ix
        (processedRadii D alpha k p_ix
          (get_critical_values D alpha p_ix
            (listMax D.flatten / alpha) 0))).getLast?) := by
  rw [calculate_decision_score_getD hp, scanRadii_eq_lastOr, lastOr_none_eq]

/-- Witness for the amended C1 at the two-point dataset `[0, 1]`. -/
theorem C1_witness :
    realScoreVal ((calculate_decision_score (distMatrix1D [0, 1]) (1/2) 3).getD
      0 none) =
      realScoreVal ((qualifyingStats (distMatrix1D [0, 1]) (1/2) 0
        (processedRadii (distMatrix1D [0, 1]) (1/2) 3 0
          (get_critical_values (distMatrix1D [0, 1]) (1/2) 0
            (listMax (distMatrix1D [0, 1]).flatten / (1/2)) 0))).getLast?) :=
  C1_last_qualifying_wins (distMatrix1D [0, 1]) (1/2) 3 0
    (by with_unfolding_all decide)

/-- C4 is false on the code: in the dataset `[0, 1]` with `alpha = 1/2` and
`r = 4`, the strict threshold is `alpha * r = 2` and the count for point 0 is
`2 = N`, exceeding `N - 1 = 1`: a point counts itself whenever `alpha * r > 0`
because its self-distance is `0 < alpha * r`. -/
theorem C4_counterexample : ¬ C4Statement := by
  intro h
  have h2 := h [0, 1] (1/2) 4 0 (by norm_num) (by norm_num)
  rw [show get_alpha_n_scalar (distMatrix1D [0, 1]) (1/2) 0 4 = 2 from
    by with_unfolding_all decide] at h2
  exact absurd h2 (by with_unfolding_all decide)

/-- C4 amended: for a square zero-diagonal distance matrix, `alpha > 0` and
`r > 0`, the scalar alpha count of a valid index lies in `[1, N]` (the point
always counts itself, since its self-distance `0` is strictly less than
`alpha * r`), and every batch-mode entry is at most `N`. -/
theorem C4_alpha_count_bounds (D : DistMatrix) (alpha r : ℚ) (i : ℕ)
    (idx : List ℕ) (halpha : 0 < alpha) (hr : 0 < r) (hi : i < D.length)
    (hsq : ∀ l ∈ D, l.length = D.length)
    (hdiag : (row D i).getD i 0 = 0) :
    1 ≤ get_alpha_n_scalar D alpha i r ∧
      get_alpha_n_scalar D alpha i r ≤ D.length ∧
      ∀ c ∈ get_alpha_n_batch D alpha idx r, c ≤ D.length := by
  have hrow : (row D i).length = D.length := row_length_of_square hsq hi
  refine ⟨?_, ?_, ?_⟩
  · have hmem : (row D i).getD i 0 ∈ row D i := by
      rw [List.getD_eq_getElem _ _ (by rw [hrow]; exact hi)]
      exact List.getElem_mem _
    rw [hdiag] at hmem
    exact List.countP_pos_iff.2 ⟨0, hmem, decide_eq_true (mul_pos hr halpha)⟩
  · exact le_trans (List.countP_le_length _) (le_of_eq hrow)
  · intro c hc
    rcases mem_get_alpha_n_batch.1 hc with ⟨j, -, rfl⟩
    by_cases hj : j < D.length
    · exact le_trans (List.countP_le_length _)
        (le_of_eq (row_length_of_square hsq hj))
    · rw [row, List.getD_eq_default _ _ (Nat.le_of_not_lt hj)]
      simp

/-- Witness for the amended C4 at the dataset `[0, 1]`, `alpha = 1/2`,
`r = 4`. -/
theorem C4_witness :
    1 ≤ get_alpha_n_scalar (distMatrix1D [0, 1]) (1/2) 0 4 ∧
      get_alpha_n_scalar (distMatrix1D [0, 1]) (1/2) 0 4 ≤
        (distMatrix1D [0, 1]).length ∧
      ∀ c ∈ get_alpha_n_batch (distMatrix1D [0, 1]) (1/2) [0] 4,
        c ≤ (distMatrix1D [0, 1]).length :=
  C4_alpha_count_bounds (distMatrix1D [0, 1]) (1/2) 4 0 [0] (by norm_num)
    (by norm_num) (by with_unfolding_all decide)
    (by with_unfolding_all decide) (by with_unfolding_all decide)

lemma radiusStat_var (D : DistMatrix) (alpha : ℚ) (p_ix : ℕ) (r : ℚ) :
    (radiusStat D alpha p_ix r).var =
      qvarOf (List.map (fun n : ℕ => (n : ℚ))
        (get_alpha_n_batch D alpha (get_sampling_N D p_ix r) r)) := rfl

/-- C8 is false on the code: "every returned score is a finite real (never
NaN)" requires the float divisor `sigma_mdef = sqrt(var) / n_hat` of the
written score to be nonzero; on the dataset `xs40` (20 points at 0 and 20 at
1, defaults `alpha = 1/2`, `k = 3`) point 0's final written radius has
`var = 0` and `n_hat = 20`, so `sigma_mdef = 0` and the float score is
`mdef / sigma_mdef = 0.0 / 0.0 = NaN`. -/
theorem C8_counterexample :
    ¬ (∀ (xs : List ℚ) (p_ix : ℕ) (s : RadiusStat),
        (calculateDecisionScore1D xs (1/2) 3).getD p_ix none = some s →
          Real.sqrt (s.var : ℝ) / (s.nHat : ℝ) ≠ 0) := by
  intro h
  refine h xs40 0 ⟨20, 20, 0, 0⟩ score40 ?_
  show Real.sqrt ((0 : ℚ) : ℝ) / ((20 : ℚ) : ℝ) = 0
  rw [show ((0 : ℚ) : ℝ) = (0 : ℝ) by norm_num, Real.sqrt_zero]
  norm_num

/-- C8 amended: every written score descriptor comes from a radius with
`n_hat >= 20` and non-negative variance, and its score is a well-defined
finite real whenever that variance is nonzero (the `var = 0` case is the
reachable division by zero, float NaN, of `C8_counterexample`); moreover
non-negativity indeed fails: on the dataset `xs24` (22 points at 0, 2 at 1)
point 0's final descriptor has `cur_alpha_n > n_hat` and a strictly negative
real score. -/
theorem C8_finiteness_amended :
    (∀ (D : DistMatrix) (alpha k : ℚ) (p_ix : ℕ) (cv : List ℚ)
        (s : RadiusStat),
      scanRadii D alpha k p_ix cv none = some s →
        20 ≤ s.nHat ∧ 0 ≤ s.var ∧
          (s.var ≠ 0 → Real.sqrt (s.var : ℝ) / (s.nHat : ℝ) ≠ 0)) ∧
    (∃ s : RadiusStat,
      (calculateDecisionScore1D xs24 (1/2) 3).getD 0 none = some s ∧
        s.nHat < (s.cur : ℚ) ∧ realScoreVal (some s) < 0) := by
  constructor
  · intro D alpha k p_ix cv s h
    rcases scanRadii_fired cv none s h with habs | ⟨r, rfl, hge⟩
    · exact absurd habs (by simp)
    · have hvar : 0 ≤ (radiusStat D alpha p_ix r).var := by
        rw [radiusStat_var]
        exact qvarOf_nonneg _
      refine ⟨hge, hvar, ?_⟩
      intro hne
      have hvpos : (0 : ℝ) < ((radiusStat D alpha p_ix r).var : ℝ) := by
        have h0 : (0 : ℚ) < (radiusStat D alpha p_ix r).var :=
          lt_of_le_of_ne hvar (Ne.symm hne)
        exact_mod_cast h0
      have hnpos : (0 : ℝ) < ((radiusStat D alpha p_ix r).nHat : ℝ) := by
        have h0 : (0 : ℚ) < (radiusStat D alpha p_ix r).nHat :=
          lt_of_lt_of_le (by norm_num) hge
        exact_mod_cast h0
      exact ne_of_gt (div_pos (Real.sqrt_pos.2 hvpos) hnpos)
  · refine ⟨⟨22, 61/3, -5/61, 275/9⟩, score24, ?_, ?_⟩
    · show (61/3 : ℚ) < ((22 : ℕ) : ℚ)
      norm_num
    · show ((-5/61 : ℚ) : ℝ) /
        (Real.sqrt ((275/9 : ℚ) : ℝ) / ((61/3 : ℚ) : ℝ)) < 0
      apply div_neg_of_neg_of_pos
      · push_cast
        norm_num
      · exact div_pos (Real.sqrt_pos.2 (by push_cast; norm_num))
          (by push_cast; norm_num)

set_option maxRecDepth 8000 in
/-- Witness for the amended C8 on the small matrix `matD2`, whose scan fires
with descriptor `⟨1, 41/2, 39/41, 1521/4⟩`. -/
theorem C8_witness :
    20 ≤ (⟨1, 41/2, 39/41, 1521/4⟩ : RadiusStat).nHat ∧
      0 ≤ (⟨1, 41/2, 39/41, 1521/4⟩ : RadiusStat).var ∧
      ((⟨1, 41/2, 39/41, 1521/4⟩ : RadiusStat).var ≠ 0 →
        Real.sqrt (((⟨1, 41/2, 39/41, 1521/4⟩ : RadiusStat).var : ℚ) : ℝ) /
          (((⟨1, 41/2, 39/41, 1521/4⟩ : RadiusStat).nHat : ℚ) : ℝ) ≠ 0) :=
  C8_finiteness_amended.1 matD2 (1/2) 3 0 [1, 2] ⟨1, 41/2, 39/41, 1521/4⟩
    (by with_unfolding_all decide)
